import Mathlib

/-!
Verification of the whakoom-webscrapper persistence subsystem against its
specification.  The Lean definitions below are a shallow embedding of the
Python source under whakoom_webscrapper/ (sqlmanager.py, pipelines.py,
models.py, models/__init__.py, spiders/publications.py): SQLite tables are
lists of rows, a row is an association list from column name to value, and
the stateful methods become explicit state-passing functions.
-/

/-- Dynamically typed SQLite cell value (sqlite stores NULL / INTEGER / TEXT
for all columns used by this subsystem). -/
inductive Val where
  | vnull : Val
  | vint : Int → Val
  | vstr : String → Val
deriving DecidableEq, Repr

/-- One table row: an association list from column name to value, as produced
by sqlite3.Row / dict(row) in the source. -/
abbrev Row : Type := List (String × Val)

/-- Column lookup in a row (dict access on a sqlite3.Row). -/
def lookupVal (r : Row) (k : String) : Option Val :=
  (r.find? (fun kv => kv.1 = k)).map (fun kv => kv.2)

/-- Effect of SQL `SET field_name = ?` on one row: every column named
`fieldName` receives the new value, all other columns keep theirs. -/
def setField (r : Row) (fieldName : String) (v : Val) : Row :=
  r.map (fun kv => if kv.1 = fieldName then (kv.1, v) else kv)

/-- SQLManager.update_single_field (sqlmanager.py lines 374-395): executes
`UPDATE {table} SET {field_name} = ? WHERE {id_field} = ?`, i.e. rewrites the
target column of every row whose id column equals the id value and leaves all
other rows untouched. -/
def update_single_field (table : List Row) (id_field : String) (id_value : Val)
    (field_name : String) (field_value : Val) : List Row :=
  table.map (fun r =>
    if lookupVal r id_field = some id_value then setField r field_name field_value else r)

theorem lookupVal_cons (a : String × Val) (l : Row) (g : String) :
    lookupVal (a :: l) g = if a.1 = g then some a.2 else lookupVal l g := by
  by_cases h : a.1 = g
  · simp [lookupVal, List.find?, h]
  · simp [lookupVal, List.find?, h]

theorem setField_cons (kv : String × Val) (rest : Row) (fN : String) (v : Val) :
    setField (kv :: rest) fN v =
      (if kv.1 = fN then (kv.1, v) else kv) :: setField rest fN v := by
  simp [setField]

theorem lookupVal_setField_ne (r : Row) (fN g : String) (v : Val) (hg : g ≠ fN) :
    lookupVal (setField r fN v) g = lookupVal r g := by
  induction r with
  | nil => rfl
  | cons kv rest ih =>
    rw [setField_cons, lookupVal_cons, lookupVal_cons]
    have hfg : ¬ fN = g := fun h => hg h.symm
    by_cases hk : kv.1 = fN
    · have hkg : ¬ kv.1 = g := fun h => hg (h ▸ hk)
      simp [hk, hkg, hfg, hg, ih]
    · by_cases hkg : kv.1 = g
      · simp [hk, hkg, hfg, hg]
      · simp [hk, hkg, hfg, hg, ih]

/-- C9: update_single_field changes only the targeted column of the rows
matched by the WHERE clause: the result has one row per input row
(in order), a row whose id column does not match is returned unchanged, and a
matched row agrees with the original on every column other than the targeted
one.  In particular, when the key matches a single row, every other column of
that row and every other row of the table are unchanged. -/
theorem update_single_field_frame (table : List Row) (id_field : String)
    (id_value : Val) (field_name : String) (field_value : Val) :
    List.Forall₂
      (fun r r' =>
        (lookupVal r id_field ≠ some id_value → r' = r) ∧
        (∀ g, g ≠ field_name → lookupVal r' g = lookupVal r g))
      table (update_single_field table id_field id_value field_name field_value) := by
  induction table with
  | nil => exact List.Forall₂.nil
  | cons r rest ih =>
    refine List.Forall₂.cons ?_ ih
    by_cases hm : lookupVal r id_field = some id_value
    · refine ⟨fun hne => absurd hm hne, fun g hg => ?_⟩
      simp only [update_single_field, hm, if_pos]
      exact lookupVal_setField_ne r field_name g field_value hg
    · refine ⟨fun _ => ?_, fun g _ => ?_⟩
      · simp [update_single_field, hm]
      · simp [update_single_field, hm]

/-- Witness: update_single_field_frame applied to a concrete two-row lists
table, updating scrape_status of the row with list_id 1. -/
theorem update_single_field_frame_witness :
    List.Forall₂
      (fun r r' =>
        (lookupVal r "list_id" ≠ some (Val.vint 1) → r' = r) ∧
        (∀ g, g ≠ "scrape_status" → lookupVal r' g = lookupVal r g))
      [[("list_id", Val.vint 1), ("scrape_status", Val.vstr "pending")],
       [("list_id", Val.vint 2), ("scrape_status", Val.vstr "pending")]]
      (update_single_field
        [[("list_id", Val.vint 1), ("scrape_status", Val.vstr "pending")],
         [("list_id", Val.vint 2), ("scrape_status", Val.vstr "pending")]]
        "list_id" (Val.vint 1) "scrape_status" (Val.vstr "completed")) :=
  update_single_field_frame
    [[("list_id", Val.vint 1), ("scrape_status", Val.vstr "pending")],
     [("list_id", Val.vint 2), ("scrape_status", Val.vstr "pending")]]
    "list_id" (Val.vint 1) "scrape_status" (Val.vstr "completed")

/-- One scraping_log row as written by SQLManager.log_scraping_operation,
restricted to the fields the retry loop fills in. -/
structure LogEntry where
  operation_type : String
  status : String
  error_message : Option String
deriving DecidableEq, Repr

/-- Observable outcome of WhakoomWebscrapperPipeline.process_item: whether the
item was stored, the sleeps performed between attempts (in time-units), the
failure audit entries written by the retry wrapper, and the DropItem message
raised on exhaustion (none when processing succeeded). -/
structure ProcResult where
  succeeded : Bool
  delays : List Nat
  failLogs : List LogEntry
  raised : Option String
deriving DecidableEq, Repr

/-- The `for attempt in range(max_retries)` loop of process_item
(pipelines.py lines 98-131).  `work attempt` models the attempt of the
item-specific handler (it raises an exception, modelled as .error, or
returns); on failure before the last attempt the loop sleeps retry_delay and
doubles it, on the last attempt it writes one item_failed audit entry and
raises DropItem. -/
def processRange (work : Nat → Except String Unit) (max_retries : Nat) :
    List Nat → Nat → List Nat → ProcResult
  | [], _, delays => ⟨false, delays, [], none⟩
  | attempt :: rest, retry_delay, delays =>
    match work attempt with
    | .ok _ => ⟨true, delays, [], none⟩
    | .error e =>
      if attempt < max_retries - 1 then
        processRange work max_retries rest (retry_delay * 2) (delays ++ [retry_delay])
      else
        ⟨false, delays,
         [⟨"item_failed", "failed", some e⟩],
         some ("Failed to process item after " ++ toString max_retries ++ " attempts: " ++ e)⟩

/-- WhakoomWebscrapperPipeline.process_item (pipelines.py lines 78-131):
max_retries = 3, retry_delay starts at 1, attempts are numbered 0, 1, 2. -/
def process_item (work : Nat → Except String Unit) : ProcResult :=
  processRange work 3 [0, 1, 2] 1 []

/-- C4: a unit of persistence work that fails on the first two attempts and
succeeds on the third completes successfully with exactly the two delays 1
then 2 slept between attempts and no failure audit entry; a unit that fails
on all 3 attempts yields exactly one item_failed audit entry carrying the
triggering (last) error message, a terminal drop error naming the attempt
count, and still only the two between-attempt delays. -/
theorem process_item_retry_behavior (work : Nat → Except String Unit)
    (e0 e1 : String) (h0 : work 0 = .error e0) (h1 : work 1 = .error e1) :
    (work 2 = .ok () → process_item work = ⟨true, [1, 2], [], none⟩) ∧
    (∀ e2, work 2 = .error e2 →
      process_item work =
        ⟨false, [1, 2],
         [⟨"item_failed", "failed", some e2⟩],
         some ("Failed to process item after 3 attempts: " ++ e2)⟩) := by
  constructor
  · intro h2
    simp [process_item, processRange, h0, h1, h2]
  · intro e2 h2
    simp [process_item, processRange, h0, h1, h2]
    congr 1

/-- Witness: process_item_retry_behavior at a concrete work unit that fails
with message boom on attempts 0 and 1; both conclusions evaluated. -/
theorem process_item_retry_behavior_witness :
    (((fun n => if n < 2 then (.error "boom" : Except String Unit) else .ok ()) 2 = .ok ()) →
      process_item (fun n => if n < 2 then .error "boom" else .ok ()) =
        ⟨true, [1, 2], [], none⟩) ∧
    (∀ e2, (fun n => if n < 2 then (.error "boom" : Except String Unit) else .ok ()) 2 = .error e2 →
      process_item (fun n => if n < 2 then .error "boom" else .ok ()) =
        ⟨false, [1, 2],
         [⟨"item_failed", "failed", some e2⟩],
         some ("Failed to process item after 3 attempts: " ++ e2)⟩) :=
  process_item_retry_behavior
    (fun n => if n < 2 then .error "boom" else .ok ()) "boom" "boom"
    (by rfl) (by rfl)

/-- The reflective view of a dataclass model type that SQLManager.insert uses:
its class name (for the isinstance check), the value of its table_name class
attribute (empty string when getattr defaults), and the names of its dataclass
fields in declaration order (including the trailing table_name meta field, as
dataclasses.fields reports it). -/
structure ModelClass where
  typeName : String
  table_name : String
  fieldNames : List String
deriving DecidableEq, Repr

/-- A model instance as insert sees it: the class it belongs to, whether it
exposes a to_tuple method, and the value tuple that to_tuple returns. -/
structure ModelInstance where
  typeName : String
  hasToTuple : Bool
  tupleVals : List Val
deriving DecidableEq, Repr

/-- SQLManager.insert (sqlmanager.py lines 286-319) up to the database call:
validates the instance type, the table_name attribute and the to_tuple
method, then builds the column list from the dataclass fields (excluding
table_name) and the parameter tuple from to_tuple().  Returns the table name,
the column list and the parameters of the generated
`INSERT INTO {table} ({columns}) VALUES ({placeholders})`. -/
def insertSql (model_class : ModelClass) (inst : ModelInstance) :
    Except String (String × List String × List Val) :=
  if inst.typeName ≠ model_class.typeName then
    .error ("Instance must be of type " ++ model_class.typeName)
  else if model_class.table_name = "" then
    .error ("Model " ++ model_class.typeName ++ " has no table_name attribute")
  else if ¬ inst.hasToTuple then
    .error ("Instance of " ++ model_class.typeName ++ " has no to_tuple method")
  else
    .ok (model_class.table_name,
         model_class.fieldNames.filter (fun f => f ≠ "table_name"),
         inst.tupleVals)

/-- Modelled from the spec: the table schemas live in migration .sql files
that are not under src/ (only the migrations runner is).  Per the spec data
model, the external id column (list_id / title_id / volume_id) is the table
key, so the store rejects an INSERT whose key value already appears in the
table with a UNIQUE-constraint error; otherwise the new row (columns zipped
with parameters) is appended.  insert issues a plain INSERT, so this is where
a duplicate surfaces. -/
def execInsert (keyField : String) (table : List Row) (cols : List String)
    (params : List Val) : Except String (List Row) :=
  let row : Row := cols.zip params
  if table.any (fun r => lookupVal r keyField = lookupVal row keyField) then
    .error ("UNIQUE constraint failed: " ++ keyField)
  else
    .ok (table ++ [row])

/-- ListModel from models.py lines 7-44: dataclass field declaration order is
list_id, title, url, user_profile, scrape_status, scraped_at, table_name. -/
def ListModelClass : ModelClass :=
  ⟨"ListModel", "lists",
   ["list_id", "title", "url", "user_profile", "scrape_status", "scraped_at",
    "table_name"]⟩

/-- ListModel.to_tuple (models.py lines 20-33) applied to a concrete instance:
returns (list_id, title, url, user_profile, scrape_status, scraped_at). -/
def listModelToTuple (list_id : Int) (title url user_profile scrape_status : String)
    (scraped_at : Option Val) : List Val :=
  [Val.vint list_id, Val.vstr title, Val.vstr url, Val.vstr user_profile,
   Val.vstr scrape_status, scraped_at.getD Val.vnull]

/-- SQLManager.insert of a ListModel instance against the lists table:
builds the INSERT and executes it against the store. -/
def insertListModel (table : List Row) (inst : ModelInstance) :
    Except String (List Row) :=
  match insertSql ListModelClass inst with
  | .error e => .error e
  | .ok (_, cols, params) => execInsert "list_id" table cols params

theorem insertSql_listModel_ok (inst : ModelInstance)
    (ht : inst.typeName = "ListModel") (htup : inst.hasToTuple = true) :
    insertSql ListModelClass inst =
      .ok ("lists",
           ["list_id", "title", "url", "user_profile", "scrape_status", "scraped_at"],
           inst.tupleVals) := by
  simp [insertSql, ListModelClass, ht, htup, List.filter]

/-- A valid ListModel instance for the record (list_id 1, title a, url u,
user_profile p, scrape_status pending, scraped_at None). -/
def listInstA : ModelInstance :=
  ⟨"ListModel", true, listModelToTuple 1 "a" "u" "p" "pending" none⟩

/-- A later sighting of the same external id 1 with different values. -/
def listInstB : ModelInstance :=
  ⟨"ListModel", true, listModelToTuple 1 "b" "u2" "p2" "pending" none⟩

/-- C1 counterexample: persisting the same List record twice is not
idempotent.  Starting from an empty lists table, the first insert of the
record with list_id 1 succeeds, but re-inserting a record with the same
external id fails with a UNIQUE-constraint error instead of being ignored:
insert issues a plain INSERT, not an insert-or-ignore. -/
theorem insert_not_idempotent_counterexample :
    (∃ t₁, insertListModel [] listInstA = .ok t₁ ∧
      insertListModel t₁ listInstA = .error "UNIQUE constraint failed: list_id" ∧
      insertListModel t₁ listInstB = .error "UNIQUE constraint failed: list_id") := by
  refine ⟨[(["list_id", "title", "url", "user_profile", "scrape_status",
             "scraped_at"].zip (listModelToTuple 1 "a" "u" "p" "pending" none))],
          ?_, ?_, ?_⟩ <;> rfl

/-- C1 amended: re-inserting a record whose external id is already stored is
rejected, not ignored: insert builds a plain INSERT, so for every prior lists
table that contains a row with the same list_id value, the call fails with a
UNIQUE-constraint error; the previously stored row (the first-sighted values)
is left in place because the failing call makes no change to the store.  When
the id is absent the insert appends the new row. -/
theorem insert_duplicate_rejected (table : List Row) (inst : ModelInstance)
    (ht : inst.typeName = "ListModel") (htup : inst.hasToTuple = true)
    (hdup : table.any (fun r =>
      lookupVal r "list_id" =
        lookupVal ((["list_id", "title", "url", "user_profile", "scrape_status",
                     "scraped_at"]).zip inst.tupleVals) "list_id") = true) :
    insertListModel table inst = .error "UNIQUE constraint failed: list_id" := by
  unfold insertListModel
  rw [insertSql_listModel_ok inst ht htup]
  simp [execInsert, hdup]

/-- Witness: insert_duplicate_rejected applied to the one-row table produced
by inserting listInstA, re-inserting listInstB (same list_id 1). -/
theorem insert_duplicate_rejected_witness :
    insertListModel
      [(["list_id", "title", "url", "user_profile", "scrape_status",
         "scraped_at"].zip (listModelToTuple 1 "a" "u" "p" "pending" none))]
      listInstB = .error "UNIQUE constraint failed: list_id" :=
  insert_duplicate_rejected
    [(["list_id", "title", "url", "user_profile", "scrape_status",
       "scraped_at"].zip (listModelToTuple 1 "a" "u" "p" "pending" none))]
    listInstB (by rfl) (by rfl) (by rfl)

/-- A model class whose declared type carries no table name (getattr
"table_name" defaults to the empty string), used to exercise the schema-error
branch of insert. -/
def bareModelClass : ModelClass := ⟨"BareModel", "", ["x", "table_name"]⟩

/-- An instance of bareModelClass with a to_tuple method. -/
def bareInst : ModelInstance := ⟨"BareModel", true, [Val.vint 0]⟩

/-- C6 counterexample: a schema error is not fatal for the pipeline call and
is retried by the retry executor.  A work unit that persists a record whose
declared type carries no table name raises the same ValueError on every
attempt; process_item retries it twice (sleeping 1 then 2), writes an
item_failed audit entry and raises the terminal drop error, instead of
propagating the schema error immediately without retries. -/
theorem schema_error_retried_counterexample :
    process_item (fun _ => (insertSql bareModelClass bareInst).map (fun _ => ())) =
      ⟨false, [1, 2],
       [⟨"item_failed", "failed", some "Model BareModel has no table_name attribute"⟩],
       some ("Failed to process item after 3 attempts: " ++
             "Model BareModel has no table_name attribute")⟩ ∧
    (process_item (fun _ => (insertSql bareModelClass bareInst).map (fun _ => ()))).delays ≠ [] := by
  exact ⟨by rfl, by decide⟩

/-- C6 amended: schema/type errors are raised immediately by the typed insert
call itself — a declared type with no table name, a missing to_tuple method,
and an instance of the wrong declared type each produce an immediate error
from insert — but the retry executor does not exempt them: any work unit that
fails identically on every attempt (as such defects do) is retried up to the
full 3 attempts, with delays 1 and 2 between attempts, and only then surfaces
as a terminal drop error with one item_failed audit entry. -/
theorem schema_errors_fatal_per_call_but_retried
    (mc : ModelClass) (inst : ModelInstance) (e : String)
    (work : Nat → Except String Unit) (hw : ∀ n, work n = .error e) :
    (inst.typeName = mc.typeName → mc.table_name = "" →
      insertSql mc inst = .error ("Model " ++ mc.typeName ++ " has no table_name attribute")) ∧
    (inst.typeName ≠ mc.typeName →
      insertSql mc inst = .error ("Instance must be of type " ++ mc.typeName)) ∧
    (inst.typeName = mc.typeName → mc.table_name ≠ "" → inst.hasToTuple = false →
      insertSql mc inst = .error ("Instance of " ++ mc.typeName ++ " has no to_tuple method")) ∧
    process_item work =
      ⟨false, [1, 2],
       [⟨"item_failed", "failed", some e⟩],
       some ("Failed to process item after 3 attempts: " ++ e)⟩ := by
  refine ⟨fun hty htab => ?_, fun hty => ?_, fun hty htab htup => ?_, ?_⟩
  · simp [insertSql, hty, htab]
  · simp [insertSql, hty]
  · simp [insertSql, hty, htab, htup]
  · simp [process_item, processRange, hw 0, hw 1, hw 2]
    congr 1

/-- Witness: schema_errors_fatal_per_call_but_retried at bareModelClass,
bareInst and the constant schema-error work unit. -/
theorem schema_errors_fatal_per_call_but_retried_witness :
    ((bareInst.typeName = bareModelClass.typeName → bareModelClass.table_name = "" →
      insertSql bareModelClass bareInst =
        .error ("Model " ++ bareModelClass.typeName ++ " has no table_name attribute")) ∧
    (bareInst.typeName ≠ bareModelClass.typeName →
      insertSql bareModelClass bareInst =
        .error ("Instance must be of type " ++ bareModelClass.typeName)) ∧
    (bareInst.typeName = bareModelClass.typeName → bareModelClass.table_name ≠ "" →
      bareInst.hasToTuple = false →
      insertSql bareModelClass bareInst =
        .error ("Instance of " ++ bareModelClass.typeName ++ " has no to_tuple method")) ∧
    process_item (fun _ => .error "Model BareModel has no table_name attribute") =
      ⟨false, [1, 2],
       [⟨"item_failed", "failed", some "Model BareModel has no table_name attribute"⟩],
       some ("Failed to process item after 3 attempts: " ++
             "Model BareModel has no table_name attribute")⟩) :=
  schema_errors_fatal_per_call_but_retried bareModelClass bareInst
    "Model BareModel has no table_name attribute"
    (fun _ => .error "Model BareModel has no table_name attribute")
    (fun _ => rfl)

/-- TitlesItem from models/__init__.py lines 66-109, the shipped model
dataclass for the titles table.  Dataclass field declaration order is
title_id, title, title_url, scrape_status, scraped_at (then the table_name
meta field). -/
structure TitlesItem where
  title_id : Int
  title : String
  title_url : String
  scrape_status : String
  scraped_at : Option String
deriving DecidableEq, Repr

/-- Declaration-order dataclass field names of TitlesItem, excluding
table_name, exactly the column list insert derives via dataclasses.fields. -/
def TitlesItem.fieldNames : List String :=
  ["title_id", "title", "title_url", "scrape_status", "scraped_at"]

/-- TitlesItem.to_tuple as written in models/__init__.py lines 86-98: returns
(title_id, title, scrape_status, scraped_at, title_url). -/
def TitlesItem.to_tuple (x : TitlesItem) : List Val :=
  [Val.vint x.title_id, Val.vstr x.title, Val.vstr x.scrape_status,
   (x.scraped_at.map Val.vstr).getD Val.vnull, Val.vstr x.title_url]

/-- The value a TitlesItem holds in each declared field, by field name. -/
def TitlesItem.fieldValue (x : TitlesItem) (f : String) : Val :=
  if f = "title_id" then Val.vint x.title_id
  else if f = "title" then Val.vstr x.title
  else if f = "title_url" then Val.vstr x.title_url
  else if f = "scrape_status" then Val.vstr x.scrape_status
  else if f = "scraped_at" then (x.scraped_at.map Val.vstr).getD Val.vnull
  else Val.vnull

/-- The reflective class descriptor of TitlesItem as insert sees it. -/
def TitlesItemClass : ModelClass :=
  ⟨"TitlesItem", "titles", TitlesItem.fieldNames ++ ["table_name"]⟩

/-- C10: refuted on TitlesItem.  For the shipped model dataclass TitlesItem
(models/__init__.py), to_tuple() does not return the non-meta field values in
declaration order: at the concrete instance (title_id 1, title t, title_url
u, scrape_status pending, scraped_at None) the tuple is (1, t, pending, NULL,
u) while the declared field order yields (1, t, u, pending, NULL).  The
lengths agree, so the INSERT that insert builds binds the right number of
parameters, but the correspondence is shuffled: the generated column-value
pairing assigns the scrape_status value to the title_url column and the
title_url value to the scraped_at column. -/
theorem titlesItem_to_tuple_order_mismatch :
    (TitlesItem.to_tuple ⟨1, "t", "u", "pending", none⟩ ≠
      TitlesItem.fieldNames.map (TitlesItem.fieldValue ⟨1, "t", "u", "pending", none⟩)) ∧
    (TitlesItem.to_tuple ⟨1, "t", "u", "pending", none⟩).length =
      TitlesItem.fieldNames.length ∧
    insertSql TitlesItemClass
        ⟨"TitlesItem", true, TitlesItem.to_tuple ⟨1, "t", "u", "pending", none⟩⟩ =
      .ok ("titles", TitlesItem.fieldNames,
           TitlesItem.to_tuple ⟨1, "t", "u", "pending", none⟩) ∧
    ("title_url", Val.vstr "pending") ∈
      (TitlesItem.fieldNames.zip (TitlesItem.to_tuple ⟨1, "t", "u", "pending", none⟩)) ∧
    ("scraped_at", Val.vstr "u") ∈
      (TitlesItem.fieldNames.zip (TitlesItem.to_tuple ⟨1, "t", "u", "pending", none⟩)) := by
  refine ⟨by decide, by rfl, by rfl, by decide, by decide⟩

/-- Crawl status vocabulary for List/Title rows (scrape_status column). -/
inductive Status where
  | pending
  | in_progress
  | completed
  | failed
deriving DecidableEq, Repr

/-- Position of a status in the forward order pending, in_progress,
completed, failed. -/
def Status.rank : Status → Nat
  | .pending => 0
  | .in_progress => 1
  | .completed => 2
  | .failed => 3

/-- Status-affecting operations of the crawl that reachable code performs.
parseList: parse_list (spiders/publications.py lines 152-154) marks a list
in_progress when its page request succeeded; the work-set query that chose
the list is GET_LISTS_FOR_PROCESSING on pending status under mode pending,
but GET_ALL_LISTS under mode all, which selects every list whatever its
status (lines 81-86).  errbackList: errback_list (lines 331-333) marks a
list failed when its request fails.  insertList: the pipeline handler
_process_lists_item (pipelines.py lines 149-159) inserts a fresh row
(status pending by default) and records the id in processed_list_ids; a
duplicate insert raises instead, the item is eventually dropped, and the id
is not recorded.  The failed-marking in parse_volume_page (publications.py
lines 289-300) and its processed_list_ids.add (line 287) are not events of
this model: the title-id extraction that can raise ValueError runs at lines
262 and 268, before the try at line 270, and inside the try the TitlesItem
construction at line 271 passes keywords (url, is_single_volume) that the
imported models TitlesItem does not declare, raising TypeError, which
except ValueError does not catch — both branches are unreachable. -/
inductive SpEvent where
  | parseList (dbId : Nat)
  | errbackList (dbId : Nat)
  | insertList (dbId : Nat)
deriving DecidableEq, Repr

/-- Crawl-visible state: the scrape_status column of the lists table
(association list; an absent id means no row yet) and the pipeline's
in-memory processed_list_ids set (kept as a duplicate-free ordered list). -/
structure SpState where
  statuses : List (Nat × Status)
  processed : List Nat
deriving DecidableEq, Repr

/-- The scrape_status currently stored for a list id; an id without a row
reads as pending, the status a fresh insert gives it. -/
def statusOf (s : SpState) (i : Nat) : Status :=
  ((s.statuses.find? (fun p => p.1 = i)).map (fun p => p.2)).getD Status.pending

/-- update_single_field on the scrape_status column, at the state-machine
level of abstraction: an existing row is rewritten in place, otherwise the
row is materialized with the given status. -/
def setStatus (s : SpState) (i : Nat) (st : Status) : SpState :=
  if (s.statuses.find? (fun p => p.1 = i)).isSome then
    ⟨s.statuses.map (fun p => if p.1 = i then (p.1, st) else p), s.processed⟩
  else
    ⟨s.statuses ++ [(i, st)], s.processed⟩

/-- One crawl event acting on the state, as the reachable source performs
it.  insertList adds a fresh pending row and records the id; when the row
already exists the INSERT fails and the pipeline drops the item without
recording anything. -/
def stepEvent (s : SpState) : SpEvent → SpState
  | .parseList i => setStatus s i .in_progress
  | .errbackList i => setStatus s i .failed
  | .insertList i =>
    if (s.statuses.find? (fun p => p.1 = i)).isSome then s
    else ⟨s.statuses ++ [(i, Status.pending)], s.processed ++ [i]⟩

/-- The status transition (old, new) an assignment performs, empty when the
stored value does not change. -/
def changeOf (s : SpState) (i : Nat) (st : Status) : List (Status × Status) :=
  if statusOf s i = st then [] else [(statusOf s i, st)]

/-- Status transitions performed by one crawl event.  A fresh insert creates
a pending row rather than transitioning an existing value, and a duplicate
insert changes nothing, so insertList contributes no transition. -/
def eventTransitions (s : SpState) : SpEvent → List (Status × Status)
  | .parseList i => changeOf s i .in_progress
  | .errbackList i => changeOf s i .failed
  | .insertList _ => []

/-- The pipeline close_spider sweep (pipelines.py lines 72-74): every id
accumulated in processed_list_ids is set to completed.  (The publications
spider carries the same sweep at lines 363-366, but over its own
processed_list_ids, which stays empty because line 287 is unreachable.) -/
def closeSpiderLoop (s : SpState) : List Nat → List (Status × Status)
  | [] => []
  | i :: is => changeOf s i .completed ++ closeSpiderLoop (setStatus s i .completed) is

/-- Status transitions performed at spider close. -/
def closeTransitions (s : SpState) : List (Status × Status) :=
  closeSpiderLoop s s.processed

/-- All status transitions of a full crawl lifetime: the trace of events,
then the close_spider sweep. -/
def runTransitions (s : SpState) : List SpEvent → List (Status × Status)
  | [] => closeTransitions s
  | e :: es => eventTransitions s e ++ runTransitions (stepEvent s e) es

/-- C5 counterexample: a list whose request failed in one run (errback_list
marks it failed) is selected again by a mode=all run — GET_ALL_LISTS returns
every list regardless of status — and parse_list re-claims it, performing
the transition failed -> in_progress: a backward move that is not the
claimed sole exception failed -> pending, so not every status transition of
the subsystem moves forward in the claimed order. -/
theorem status_forward_counterexample :
    ¬ (∀ t ∈ runTransitions ⟨[], []⟩ [SpEvent.errbackList 1, SpEvent.parseList 1],
        t.1.rank < t.2.rank ∨ (t.1 = Status.failed ∧ t.2 = Status.pending)) := by
  decide

/-- Association lookup underlying statusOf. -/
def statusLookup (l : List (Nat × Status)) (j : Nat) : Option Status :=
  (l.find? (fun p => p.1 = j)).map (fun p => p.2)

theorem statusLookup_cons (q : Nat × Status) (l : List (Nat × Status)) (j : Nat) :
    statusLookup (q :: l) j = if q.1 = j then some q.2 else statusLookup l j := by
  by_cases h : q.1 = j
  · simp [statusLookup, List.find?, h]
  · simp [statusLookup, List.find?, h]

theorem statusLookup_setAll_ne (l : List (Nat × Status)) (i j : Nat) (st : Status)
    (hij : j ≠ i) :
    statusLookup (l.map (fun p => if p.1 = i then (p.1, st) else p)) j =
      statusLookup l j := by
  have hij2 : ¬ i = j := fun h => hij h.symm
  induction l with
  | nil => rfl
  | cons q qs ih =>
    have hcons : (q :: qs).map (fun p => if p.1 = i then (p.1, st) else p) =
        (if q.1 = i then (q.1, st) else q) ::
          qs.map (fun p => if p.1 = i then (p.1, st) else p) := by
      simp
    rw [hcons, statusLookup_cons, statusLookup_cons]
    by_cases hq : q.1 = i
    · have hqj : ¬ q.1 = j := fun h => hij2 (hq ▸ h)
      simp [hq, hqj, hij2, ih]
    · by_cases hqj : q.1 = j
      · simp [hq, hqj, hij]
      · simp [hq, hqj, ih]

theorem statusLookup_append_ne (l : List (Nat × Status)) (i j : Nat) (st : Status)
    (hij : j ≠ i) :
    statusLookup (l ++ [(i, st)]) j = statusLookup l j := by
  induction l with
  | nil =>
    have hij2 : ¬ i = j := fun h => hij h.symm
    simp [statusLookup, List.find?, hij2]
  | cons q qs ih =>
    rw [List.cons_append, statusLookup_cons, statusLookup_cons]
    by_cases hqj : q.1 = j
    · simp [hqj]
    · simp [hqj, ih]

theorem statusOf_setStatus_ne (s : SpState) (i j : Nat) (st : Status)
    (hij : j ≠ i) : statusOf (setStatus s i st) j = statusOf s j := by
  have hs : statusOf s j = (statusLookup s.statuses j).getD Status.pending := rfl
  unfold setStatus
  by_cases hfind : (s.statuses.find? (fun p => p.1 = i)).isSome
  · rw [if_pos hfind]
    have hdef : statusOf
        ⟨s.statuses.map (fun p => if p.1 = i then (p.1, st) else p), s.processed⟩ j =
        (statusLookup (s.statuses.map (fun p => if p.1 = i then (p.1, st) else p))
          j).getD Status.pending := rfl
    rw [hdef, statusLookup_setAll_ne s.statuses i j st hij, ← hs]
  · rw [if_neg hfind]
    have hdef : statusOf ⟨s.statuses ++ [(i, st)], s.processed⟩ j =
        (statusLookup (s.statuses ++ [(i, st)]) j).getD Status.pending := rfl
    rw [hdef, statusLookup_append_ne s.statuses i j st hij, ← hs]

/-- C5 amended: the List status field only ever holds pending, in_progress,
completed or failed (the Status vocabulary), and the transitions the
reachable code performs move forward in that order — failure marking and the
close-time completion of freshly inserted, still-pending lists — with the
exception that re-claiming a list moves it to in_progress: under mode=all
the work-set query selects every list whatever its status, so parse_list
performs failed -> in_progress and completed -> in_progress.  This re-claim
is the retry mechanism; no failed -> pending transition exists, and no
operation moves a failed entity directly to completed. -/
theorem status_transitions_amended (s : SpState) (e : SpEvent) (s2 : SpState)
    (hpend : ∀ i ∈ s2.processed, statusOf s2 i = Status.pending)
    (hnodup : s2.processed.Nodup) :
    (∀ t ∈ eventTransitions s e,
      t.1.rank < t.2.rank ∨
        (t.1 = Status.failed ∧ t.2 = Status.in_progress) ∨
        (t.1 = Status.completed ∧ t.2 = Status.in_progress)) ∧
    (∀ t ∈ closeTransitions s2, t.1.rank < t.2.rank) := by
  constructor
  · intro t ht
    cases e with
    | parseList i =>
      by_cases hcur : statusOf s i = Status.in_progress
      · simp [eventTransitions, changeOf, hcur] at ht
      · simp [eventTransitions, changeOf, hcur] at ht
        subst ht
        cases h2 : statusOf s i <;> simp_all [Status.rank]
    | errbackList i =>
      by_cases hcur : statusOf s i = Status.failed
      · simp [eventTransitions, changeOf, hcur] at ht
      · simp [eventTransitions, changeOf, hcur] at ht
        subst ht
        cases h2 : statusOf s i <;> simp_all [Status.rank]
    | insertList i => simp [eventTransitions] at ht
  · have general : ∀ (l : List Nat) (st : SpState),
        (∀ i ∈ l, statusOf st i = Status.pending) → l.Nodup →
        ∀ t ∈ closeSpiderLoop st l, t.1.rank < t.2.rank := by
      intro l
      induction l with
      | nil =>
        intro st _ _ t ht
        simp [closeSpiderLoop] at ht
      | cons i is ih =>
        intro st hpd hnd t ht
        rcases List.pairwise_cons.mp hnd with ⟨hni, hnds⟩
        simp only [closeSpiderLoop, List.mem_append] at ht
        rcases ht with hhead | htail
        · have hi := hpd i (List.mem_cons_self i is)
          simp [changeOf, hi] at hhead
          subst hhead
          decide
        · refine ih (setStatus st i Status.completed) ?_ hnds t htail
          intro j hj
          rw [statusOf_setStatus_ne st i j Status.completed
            (fun h => (hni j hj) h.symm)]
          exact hpd j (List.mem_cons_of_mem i hj)
    intro t ht
    exact general s2.processed s2 hpend hnodup t ht

/-- Witness: status_transitions_amended with a failed list re-claimed by
parse_list (the mode=all path) and a close sweep over one freshly inserted
pending list, hypotheses discharged by evaluation. -/
theorem status_transitions_amended_witness :
    (∀ t ∈ eventTransitions ⟨[(1, Status.failed)], []⟩ (SpEvent.parseList 1),
      t.1.rank < t.2.rank ∨
        (t.1 = Status.failed ∧ t.2 = Status.in_progress) ∨
        (t.1 = Status.completed ∧ t.2 = Status.in_progress)) ∧
    (∀ t ∈ closeTransitions ⟨[(2, Status.pending)], [2]⟩, t.1.rank < t.2.rank) :=
  status_transitions_amended ⟨[(1, Status.failed)], []⟩ (SpEvent.parseList 1)
    ⟨[(2, Status.pending)], [2]⟩ (by decide) (by decide)

/-- Python str.endswith applied to the .sql extension: the last four
characters are .sql. -/
def strEndsSql (s : String) : Bool :=
  s.toList.reverse.take 4 = ['l', 'q', 's', '.']

/-- Python str.split with maxsplit 1: split a character list at the first
underscore, none when no underscore occurs. -/
def splitFirstUnderscore : List Char → Option (List Char × List Char)
  | [] => none
  | c :: cs =>
    if c = '_' then some ([], cs)
    else
      match splitFirstUnderscore cs with
      | none => none
      | some (a, b) => some (c :: a, b)

/-- SQLManager._parse_migration_filename (sqlmanager.py lines 172-198):
a filename must end in .sql; the stem is split on the first underscore into
(version, name); missing separator, empty version or empty name give None. -/
def parse_migration_filename (filename : String) : Option (String × String) :=
  if strEndsSql filename then
    match splitFirstUnderscore (filename.toList.take (filename.toList.length - 4)) with
    | none => none
    | some (v, n) =>
      if v = [] ∨ n = [] then none else some (String.mk v, String.mk n)
  else none

/-- Lexicographic comparison of character lists by code point, the order
Python sorted() uses on strings. -/
def charsLe : List Char → List Char → Bool
  | [], _ => true
  | _ :: _, [] => false
  | a :: as, b :: bs => if a = b then charsLe as bs else decide (a < b)

/-- Python string comparison a at most b. -/
def strLeb (a b : String) : Bool := charsLe a.toList b.toList

/-- Insert into an ascending list, keeping it ascending. -/
def insertSorted (f : String) : List String → List String
  | [] => [f]
  | g :: gs => if strLeb f g then f :: g :: gs else g :: insertSorted f gs

/-- Python sorted() over directory entries: ascending lexicographic string
order. -/
def sortStr : List String → List String
  | [] => []
  | f :: fs => insertSorted f (sortStr fs)

/-- Declarative description of one directory entry's contribution to the
pending set: a .sql file that parses to (version, name) and whose version is
not yet applied contributes (version, name, filename). -/
def pendingPick (applied : List String) (f : String) : Option (String × String × String) :=
  if strEndsSql f then
    match parse_migration_filename f with
    | none => none
    | some (v, n) => if applied.contains v then none else some (v, n, f)
  else none

/-- The loop body of get_pending_migrations over the sorted directory
listing: non-.sql entries are skipped, a .sql entry that fails to parse
raises RuntimeError, an already-applied version is skipped, the rest are
collected in order as (version, name, file path). -/
def pendLoop (applied : List String) : List String → Except String (List (String × String × String))
  | [] => .ok []
  | f :: fs =>
    if strEndsSql f then
      match parse_migration_filename f with
      | none =>
        .error ("Invalid migration filename format: " ++ f ++
                ". Expected format: XXX_name.sql")
      | some (v, n) =>
        if applied.contains v then pendLoop applied fs
        else
          match pendLoop applied fs with
          | .error e => .error e
          | .ok rest => .ok ((v, n, f) :: rest)
    else pendLoop applied fs

/-- SQLManager.get_pending_migrations (sqlmanager.py lines 200-237).
dirExists models `self.migrations_dir and os.path.exists(...)`; filenames is
the directory listing; ledger is the rows of the migrations table, each
(version, name).  A missing directory yields an empty pending list; a
malformed .sql filename raises. -/
def get_pending_migrations (dirExists : Bool) (filenames : List String)
    (ledger : List (String × String)) :
    Except String (List (String × String × String)) :=
  if ¬ dirExists then .ok []
  else pendLoop (ledger.map Prod.fst) (sortStr filenames)

/-- Store state seen by the migration runner: the schema (abstract, type σ)
plus the migrations ledger rows (version, name) in insertion order.  The
ledger table itself is created by create_migrations_table, which is modelled
as already done (it is idempotent and touches no rows). -/
structure DBState (σ : Type) where
  schema : σ
  ledger : List (String × String)
deriving DecidableEq, Repr

/-- Contents of the migrations directory: for each filename, the Up script
extracted by the `-- Up` regular expression of apply_migrations, or none when
the file has no Up section (in which case the migration is skipped). -/
abbrev MigFiles : Type := List (String × Option String)

/-- Reading a migration file and extracting its Up section. -/
def lookupUp (files : MigFiles) (fpath : String) : Option String :=
  match files.find? (fun p => p.1 = fpath) with
  | some p => p.2
  | none => none

/-- One iteration of the apply_migrations loop (sqlmanager.py lines 244-269)
on pending entry (version, name, path): read the file, extract the Up
section (no section: silently skip); inside one transaction execute the
script and insert the ledger row; on a script error or on the ledger's
UNIQUE(version) violation the transaction is rolled back and RuntimeError is
raised.  exec is the store's script-execution semantics. -/
def applyOne {σ : Type} (exec : String → σ → Except String σ) (files : MigFiles)
    (st : DBState σ) (m : String × String × String) : Except String (DBState σ) :=
  match lookupUp files m.2.2 with
  | none => .ok st
  | some script =>
    match exec script st.schema with
    | .error e => .error ("Migration " ++ m.1 ++ " failed: " ++ e)
    | .ok schema' =>
      if m.1 ∈ st.ledger.map Prod.fst then
        .error ("Migration " ++ m.1 ++ " failed: UNIQUE constraint failed: migrations.version")
      else .ok ⟨schema', st.ledger ++ [(m.1, m.2.1)]⟩

/-- The `for migration in pending` loop of apply_migrations: units are
applied in order; the first failing unit leaves the store as it was before
that unit, surfaces its error, and stops the loop. -/
def applyList {σ : Type} (exec : String → σ → Except String σ) (files : MigFiles) :
    List (String × String × String) → DBState σ → DBState σ × Option String
  | [], st => (st, none)
  | m :: ms, st =>
    match applyOne exec files st m with
    | .ok st' => applyList exec files ms st'
    | .error e => (st, some e)

/-- SQLManager.apply_migrations (sqlmanager.py lines 239-269): ensure the
ledger table, list the pending migrations (a malformed filename error
propagates before anything is applied), then apply them in order. -/
def apply_migrations {σ : Type} (exec : String → σ → Except String σ)
    (dirExists : Bool) (files : MigFiles) (st : DBState σ) :
    DBState σ × Option String :=
  match get_pending_migrations dirExists (files.map Prod.fst) st.ledger with
  | .error e => (st, some e)
  | .ok pending => applyList exec files pending st

/-- dict.update of one parsed query block map into the accumulated registry:
an existing name is overwritten in place, a new name is appended.  Names are
uppercased as _parse_named_queries does. -/
def setAssoc : List (String × String) → String → String → List (String × String)
  | [], k, v => [(k, v)]
  | p :: ps, k, v => if p.1 = k then (k, v) :: ps else p :: setAssoc ps k v

/-- queries.update(named_queries) for one .sql file's parsed blocks. -/
def updateQueries (queries : List (String × String)) (blocks : List (String × String)) :
    List (String × String) :=
  blocks.foldl (fun acc b => setAssoc acc b.1.toUpper b.2) queries

/-- SQLManager._load_queries_from_files (sqlmanager.py lines 37-52).
dirExists models `self.sql_dir and os.path.exists(...)`; each directory
entry carries its blocks as parsed by _parse_named_queries (name, sql).
When the directory is missing the loop body never runs and the empty
registry is returned. -/
def load_queries_from_files (dirExists : Bool)
    (files : List (String × List (String × String))) : List (String × String) :=
  if dirExists then
    files.foldl (fun acc p => if strEndsSql p.1 then updateQueries acc p.2 else acc) []
  else []

/-- SQLManager.execute_query name resolution (sqlmanager.py lines 109-111):
an unregistered (or empty) query name raises ValueError. -/
def resolveQuery (queries : List (String × String)) (query_name : String) :
    Except String String :=
  match (queries.find? (fun p => p.1 = query_name.toUpper)).map (fun p => p.2) with
  | none => .error ("Query " ++ query_name ++ " not found.")
  | some q => if q = "" then .error ("Query " ++ query_name ++ " not found.") else .ok q

/-- C2: for every pending migration processed by the apply_migrations loop,
execution of the Up script and the ledger insert form one atomic unit: when
the script execution fails on the store state reached before that unit, the
loop returns that state unchanged (so no schema change and no ledger row for
that migration survive — the transaction is rolled back), surfaces the
RuntimeError naming the migration, and does not attempt any of the remaining
pending migrations. -/
theorem migration_failure_atomic {σ : Type} (exec : String → σ → Except String σ)
    (files : MigFiles) (st : DBState σ) (v n fp script emsg : String)
    (ms : List (String × String × String))
    (hup : lookupUp files fp = some script)
    (hfail : exec script st.schema = .error emsg) :
    applyList exec files ((v, n, fp) :: ms) st =
      (st, some ("Migration " ++ v ++ " failed: " ++ emsg)) := by
  simp [applyList, applyOne, hup, hfail]

/-- Witness: migration_failure_atomic on a one-file directory whose Up script
fails with a syntax error, with one further pending migration that is then
never attempted. -/
theorem migration_failure_atomic_witness :
    applyList (fun (_ : String) (_ : Nat) => (.error "syntax error" : Except String Nat))
      [("001_init.sql", some "CREATE TABLE x")]
      [("001", "init", "001_init.sql"), ("002", "more", "002_more.sql")]
      ⟨0, []⟩ =
      (⟨0, []⟩, some ("Migration " ++ "001" ++ " failed: " ++ "syntax error")) :=
  migration_failure_atomic
    (fun _ _ => .error "syntax error")
    [("001_init.sql", some "CREATE TABLE x")]
    ⟨0, []⟩ "001" "init" "001_init.sql" "CREATE TABLE x" "syntax error"
    [("002", "more", "002_more.sql")]
    (by rfl) (by rfl)

/-- C7 counterexample: a missing migrations directory and a missing
named-query directory are not fatal and raise nothing: get_pending_migrations
returns an empty pending set, apply_migrations completes without error
leaving the store untouched, and the query registry is loaded empty — the
configuration error is silently absorbed, contradicting the claim that it is
raised immediately. -/
theorem missing_dirs_counterexample :
    get_pending_migrations false ["001_init.sql"] [] = .ok [] ∧
    apply_migrations (fun (_ : String) (s : Nat) => .ok s) false
      [("001_init.sql", some "CREATE TABLE lists")] ⟨0, []⟩ = (⟨0, []⟩, none) ∧
    load_queries_from_files false [("queries.sql", [("get_lists", "SELECT 1")])] = [] :=
  ⟨rfl, rfl, rfl⟩

/-- C7 amended: a missing migrations directory or a missing named-query
directory is silently absorbed, not raised: for every directory listing and
ledger the pending set is reported empty, apply_migrations succeeds without
touching the store, and the named-query registry is loaded empty.  (Only a
lookup of an unregistered query name raises, which resolveQuery models.) -/
theorem missing_dirs_silently_absorbed {σ : Type}
    (exec : String → σ → Except String σ) (filenames : List String)
    (ledger : List (String × String)) (files : MigFiles) (st : DBState σ)
    (qfiles : List (String × List (String × String))) :
    get_pending_migrations false filenames ledger = .ok [] ∧
    apply_migrations exec false files st = (st, none) ∧
    load_queries_from_files false qfiles = [] :=
  ⟨rfl, rfl, rfl⟩

theorem mem_insertSorted (x f : String) (l : List String) :
    x ∈ insertSorted f l ↔ x = f ∨ x ∈ l := by
  induction l with
  | nil => simp [insertSorted]
  | cons g gs ih =>
    by_cases h : strLeb f g = true
    · simp [insertSorted, h]
    · simp [insertSorted, h, ih]
      tauto

theorem mem_sortStr (x : String) (l : List String) : x ∈ sortStr l ↔ x ∈ l := by
  induction l with
  | nil => simp [sortStr]
  | cons f fs ih =>
    simp [sortStr, mem_insertSorted, ih]

theorem pendLoop_error_of_bad (applied : List String) (fs : List String)
    (f : String) (hf : f ∈ fs) (hsql : strEndsSql f = true)
    (hbad : parse_migration_filename f = none) :
    ∃ e, pendLoop applied fs = .error e := by
  induction fs with
  | nil => cases hf
  | cons g gs ih =>
    rcases List.mem_cons.mp hf with hfg | htail
    · subst hfg
      exact ⟨"Invalid migration filename format: " ++ f ++ ". Expected format: XXX_name.sql",
             by simp [pendLoop, hsql, hbad]⟩
    · by_cases hg : strEndsSql g = true
      · cases hpg : parse_migration_filename g with
        | none =>
          exact ⟨"Invalid migration filename format: " ++ g ++ ". Expected format: XXX_name.sql",
                 by simp [pendLoop, hg, hpg]⟩
        | some vn =>
          obtain ⟨e, he⟩ := ih htail
          by_cases hap : applied.contains vn.1
          · exact ⟨e, by simp [pendLoop, hg, hpg, hap, he]⟩
          · exact ⟨e, by simp [pendLoop, hg, hpg, hap, he]⟩
      · obtain ⟨e, he⟩ := ih htail
        exact ⟨e, by simp [pendLoop, hg, he]⟩

/-- C8: when the migrations directory contains at least one malformed .sql
migration filename (no separator, empty version, or empty name — i.e. the
filename parser rejects it), get_pending_migrations fails with an
invalid-migration-name error, and apply_migrations propagates that error
before applying any migration: the store (schema and ledger rows alike) is
returned exactly as it was. -/
theorem malformed_name_fails_fast {σ : Type} (exec : String → σ → Except String σ)
    (files : MigFiles) (st : DBState σ) (f : String)
    (hmem : f ∈ files.map Prod.fst) (hsql : strEndsSql f = true)
    (hbad : parse_migration_filename f = none) :
    (∃ e, get_pending_migrations true (files.map Prod.fst) st.ledger = .error e) ∧
    (∃ e, apply_migrations exec true files st = (st, some e)) := by
  obtain ⟨e, he⟩ := pendLoop_error_of_bad (st.ledger.map Prod.fst)
    (sortStr (files.map Prod.fst)) f ((mem_sortStr f _).mpr hmem) hsql hbad
  refine ⟨⟨e, ?_⟩, ⟨e, ?_⟩⟩
  · simp [get_pending_migrations, he]
  · simp [apply_migrations, get_pending_migrations, he]

/-- Witness: malformed_name_fails_fast on a directory holding the malformed
filename badname.sql (no separator) next to a valid migration, over a ledger
holding one applied version. -/
theorem malformed_name_fails_fast_witness :
    (∃ e, get_pending_migrations true
        ([("badname.sql", some "CREATE TABLE x"),
          ("001_init.sql", some "CREATE TABLE y")].map Prod.fst)
        (DBState.ledger (σ := Nat) ⟨7, [("000", "base")]⟩) = .error e) ∧
    (∃ e, apply_migrations (fun (_ : String) (s : Nat) => .ok s) true
        [("badname.sql", some "CREATE TABLE x"), ("001_init.sql", some "CREATE TABLE y")]
        ⟨7, [("000", "base")]⟩ = (⟨7, [("000", "base")]⟩, some e)) :=
  malformed_name_fails_fast (fun _ s => .ok s)
    [("badname.sql", some "CREATE TABLE x"), ("001_init.sql", some "CREATE TABLE y")]
    ⟨7, [("000", "base")]⟩ "badname.sql"
    (by decide) (by decide) (by decide)

theorem charsLe_total : ∀ as bs : List Char, charsLe as bs = true ∨ charsLe bs as = true
  | [], _ => Or.inl rfl
  | _ :: _, [] => Or.inr rfl
  | a :: as, b :: bs => by
    by_cases hab : a = b
    · subst hab
      simpa [charsLe] using charsLe_total as bs
    · rcases lt_trichotomy a b with hlt | heq | hgt
      · exact Or.inl (by simp [charsLe, hab, hlt])
      · exact absurd heq hab
      · have hba : ¬ b = a := fun h => hab h.symm
        exact Or.inr (by simp [charsLe, hba, hgt])

theorem charsLe_trans : ∀ as bs cs : List Char,
    charsLe as bs = true → charsLe bs cs = true → charsLe as cs = true
  | [], _, _ => fun _ _ => rfl
  | _ :: _, [], _ => fun h _ => by simp [charsLe] at h
  | _ :: _, _ :: _, [] => fun _ h => by simp [charsLe] at h
  | a :: as, b :: bs, c :: cs => by
    intro h1 h2
    by_cases hab : a = b
    · subst hab
      by_cases hac : a = c
      · subst hac
        simp [charsLe] at h1 h2 ⊢
        exact charsLe_trans as bs cs h1 h2
      · simp [charsLe, hac] at h2 ⊢
        exact h2
    · simp [charsLe, hab] at h1
      by_cases hbc : b = c
      · subst hbc
        simp [charsLe, hab, h1]
      · simp [charsLe, hbc] at h2
        have hac : a < c := lt_trans h1 h2
        simp [charsLe, ne_of_lt hac, hac]

theorem strLeb_total (a b : String) : strLeb a b = true ∨ strLeb b a = true :=
  charsLe_total a.toList b.toList

theorem strLeb_trans (a b c : String) (h1 : strLeb a b = true) (h2 : strLeb b c = true) :
    strLeb a c = true :=
  charsLe_trans a.toList b.toList c.toList h1 h2

/-- Ascending order on a directory listing. -/
def SortedF (l : List String) : Prop := l.Pairwise (fun a b => strLeb a b = true)

theorem sortedF_insertSorted (f : String) (l : List String) (h : SortedF l) :
    SortedF (insertSorted f l) := by
  induction l with
  | nil => simp [insertSorted, SortedF]
  | cons g gs ih =>
    rcases List.pairwise_cons.mp h with ⟨hg, hgs⟩
    by_cases hfg : strLeb f g = true
    · rw [insertSorted, if_pos hfg]
      refine List.Pairwise.cons ?_ h
      intro x hx
      rcases List.mem_cons.mp hx with rfl | hxgs
      · exact hfg
      · exact strLeb_trans f g x hfg (hg x hxgs)
    · rw [insertSorted, if_neg hfg]
      have hgf : strLeb g f = true := (strLeb_total f g).resolve_left hfg
      refine List.Pairwise.cons ?_ (ih hgs)
      intro x hx
      rcases (mem_insertSorted x f gs).mp hx with rfl | hxgs
      · exact hgf
      · exact hg x hxgs

theorem sortedF_sortStr (l : List String) : SortedF (sortStr l) := by
  induction l with
  | nil => exact List.Pairwise.nil
  | cons f fs ih => exact sortedF_insertSorted f (sortStr fs) ih

theorem pendLoop_ok_of_valid (applied : List String) (fs : List String)
    (hvalid : ∀ f ∈ fs, strEndsSql f = true → parse_migration_filename f ≠ none) :
    pendLoop applied fs = .ok (fs.filterMap (pendingPick applied)) := by
  induction fs with
  | nil => rfl
  | cons g gs ih =>
    have ihtail := ih (fun f hf => hvalid f (List.mem_cons_of_mem g hf))
    by_cases hg : strEndsSql g = true
    · cases hpg : parse_migration_filename g with
      | none => exact absurd hpg (hvalid g (List.mem_cons_self g gs) hg)
      | some vn =>
        by_cases hap : vn.1 ∈ applied
        · simp [pendLoop, pendingPick, hg, hpg, hap, ihtail]
        · simp [pendLoop, pendingPick, hg, hpg, hap, ihtail]
    · simp [pendLoop, pendingPick, hg, ihtail]

theorem pendingPick_filename (applied : List String) (f : String)
    (y : String × String × String) (h : pendingPick applied f = some y) :
    y.2.2 = f ∧ strEndsSql f = true ∧
      parse_migration_filename f = some (y.1, y.2.1) ∧ y.1 ∉ applied := by
  by_cases hg : strEndsSql f = true
  · cases hpg : parse_migration_filename f with
    | none => simp [pendingPick, hg, hpg] at h
    | some vn =>
      obtain ⟨v, n⟩ := vn
      by_cases hap : v ∈ applied
      · simp [pendingPick, hg, hpg, hap] at h
      · simp [pendingPick, hg, hpg, hap] at h
        subst h
        exact ⟨rfl, hg, rfl, hap⟩
  · simp [pendingPick, hg] at h

theorem pendingPick_complete (applied : List String) (f v n : String)
    (hpg : parse_migration_filename f = some (v, n)) (hap : v ∉ applied) :
    pendingPick applied f = some (v, n, f) := by
  have hg : strEndsSql f = true := by
    by_cases h : strEndsSql f = true
    · exact h
    · rw [parse_migration_filename, if_neg h] at hpg
      cases hpg
  simp [pendingPick, hg, hpg, hap]

theorem pairwise_pendingPick (applied : List String) (l : List String)
    (h : SortedF l) :
    (l.filterMap (pendingPick applied)).Pairwise
      (fun a b => strLeb a.2.2 b.2.2 = true) := by
  induction l with
  | nil => exact List.Pairwise.nil
  | cons g gs ih =>
    rcases List.pairwise_cons.mp h with ⟨hg, hgs⟩
    cases hpick : pendingPick applied g with
    | none => simpa [List.filterMap_cons, hpick] using ih hgs
    | some y =>
      have hy := (pendingPick_filename applied g y hpick).1
      simp only [List.filterMap_cons, hpick]
      refine List.Pairwise.cons ?_ (ih hgs)
      intro z hz
      obtain ⟨w, hw, hwz⟩ := List.mem_filterMap.mp hz
      have hzw := (pendingPick_filename applied w z hwz).1
      rw [hy, hzw]
      exact hg w hw

theorem lookupUp_isSome (files : MigFiles) (f : String)
    (hf : f ∈ files.map Prod.fst) (hup : ∀ p ∈ files, p.2.isSome) :
    (lookupUp files f).isSome := by
  obtain ⟨p, hp, hpf⟩ := List.mem_map.mp hf
  unfold lookupUp
  cases hfind : files.find? (fun q => q.1 = f) with
  | none =>
    have hnone := List.find?_eq_none.mp hfind p hp
    simp [hpf] at hnone
  | some q =>
    exact hup q (List.mem_of_find?_eq_some hfind)

theorem applyList_ok_ledger {σ : Type} (exec : String → σ → Except String σ)
    (files : MigFiles) :
    ∀ (ms : List (String × String × String)) (st st' : DBState σ),
      (∀ m ∈ ms, (lookupUp files m.2.2).isSome) →
      applyList exec files ms st = (st', none) →
      st'.ledger.map Prod.fst =
        st.ledger.map Prod.fst ++ ms.map (fun m => m.1) ∧
      ((st.ledger.map Prod.fst).Nodup → (st'.ledger.map Prod.fst).Nodup) := by
  intro ms
  induction ms with
  | nil =>
    intro st st' _ h
    simp [applyList] at h
    subst h
    simp
  | cons m ms ih =>
    intro st st' hup h
    obtain ⟨script, hscript⟩ :=
      Option.isSome_iff_exists.mp (hup m (List.mem_cons_self m ms))
    simp only [applyList, applyOne, hscript] at h
    cases hexec : exec script st.schema with
    | error e =>
      rw [hexec] at h
      simp at h
    | ok schema' =>
      rw [hexec] at h
      by_cases hdup : m.1 ∈ st.ledger.map Prod.fst
      · simp [hdup] at h
      · simp only [hdup, if_neg, if_false, ite_false] at h
        obtain ⟨heq, hnd⟩ :=
          ih (⟨schema', st.ledger ++ [(m.1, m.2.1)]⟩ : DBState σ) st'
            (fun x hx => hup x (List.mem_cons_of_mem m hx)) h
        constructor
        · rw [heq]
          simp
        · intro hnodup
          apply hnd
          simp only [List.map_append, List.map_cons, List.map_nil]
          rw [List.nodup_append]
          refine ⟨hnodup, List.nodup_singleton _, ?_⟩
          intro a ha hb
          simp at hb
          subst hb
          exact hdup ha

/-- C3: for every migration directory of validly named .sql files (each with
an Up section) and every duplicate-free ledger, get_pending_migrations
returns exactly the files whose version is absent from the ledger — its
result is the sorted directory listing filtered to unapplied versions, an
entry (v, n, f) is present precisely when file f parses to (v, n) and v is
not in the ledger, and the entries are sorted by filename — and when
apply_migrations succeeds the ledger versions afterwards are exactly the
previously-applied versions followed by the newly-applied pending versions,
with no version occurring twice. -/
theorem pending_and_applyAll_exact {σ : Type} (exec : String → σ → Except String σ)
    (files : MigFiles) (st st' : DBState σ)
    (hvalid : ∀ f ∈ files.map Prod.fst,
      strEndsSql f = true ∧ parse_migration_filename f ≠ none)
    (hups : ∀ p ∈ files, p.2.isSome)
    (hnodup : (st.ledger.map Prod.fst).Nodup)
    (hrun : apply_migrations exec true files st = (st', none)) :
    get_pending_migrations true (files.map Prod.fst) st.ledger =
      .ok ((sortStr (files.map Prod.fst)).filterMap
            (pendingPick (st.ledger.map Prod.fst))) ∧
    (∀ v n f : String,
      (v, n, f) ∈ (sortStr (files.map Prod.fst)).filterMap
            (pendingPick (st.ledger.map Prod.fst)) ↔
        f ∈ files.map Prod.fst ∧ parse_migration_filename f = some (v, n) ∧
          v ∉ st.ledger.map Prod.fst) ∧
    ((sortStr (files.map Prod.fst)).filterMap
        (pendingPick (st.ledger.map Prod.fst))).Pairwise
      (fun a b => strLeb a.2.2 b.2.2 = true) ∧
    st'.ledger.map Prod.fst =
      st.ledger.map Prod.fst ++
        ((sortStr (files.map Prod.fst)).filterMap
            (pendingPick (st.ledger.map Prod.fst))).map (fun m => m.1) ∧
    (st'.ledger.map Prod.fst).Nodup := by
  have hvalid2 : ∀ f ∈ sortStr (files.map Prod.fst),
      strEndsSql f = true → parse_migration_filename f ≠ none :=
    fun f hf _ => (hvalid f ((mem_sortStr f _).mp hf)).2
  have hok := pendLoop_ok_of_valid (st.ledger.map Prod.fst)
    (sortStr (files.map Prod.fst)) hvalid2
  have hget : get_pending_migrations true (files.map Prod.fst) st.ledger =
      .ok ((sortStr (files.map Prod.fst)).filterMap
            (pendingPick (st.ledger.map Prod.fst))) := by
    simpa [get_pending_migrations] using hok
  have hmem : ∀ v n f : String,
      (v, n, f) ∈ (sortStr (files.map Prod.fst)).filterMap
            (pendingPick (st.ledger.map Prod.fst)) ↔
        f ∈ files.map Prod.fst ∧ parse_migration_filename f = some (v, n) ∧
          v ∉ st.ledger.map Prod.fst := by
    intro v n f
    constructor
    · intro hin
      obtain ⟨w, hw, hwp⟩ := List.mem_filterMap.mp hin
      obtain ⟨hfn, _, hparse, hnap⟩ := pendingPick_filename _ w _ hwp
      have hfw : f = w := hfn
      subst hfw
      exact ⟨(mem_sortStr f _).mp hw, hparse, hnap⟩
    · intro ⟨hf, hparse, hnap⟩
      exact List.mem_filterMap.mpr
        ⟨f, (mem_sortStr f _).mpr hf, pendingPick_complete _ f v n hparse hnap⟩
  have hsorted := pairwise_pendingPick (st.ledger.map Prod.fst)
    (sortStr (files.map Prod.fst)) (sortedF_sortStr (files.map Prod.fst))
  have hrun2 : applyList exec files
      ((sortStr (files.map Prod.fst)).filterMap
        (pendingPick (st.ledger.map Prod.fst))) st = (st', none) := by
    unfold apply_migrations at hrun
    rw [hget] at hrun
    exact hrun
  have hupAll : ∀ m ∈ (sortStr (files.map Prod.fst)).filterMap
      (pendingPick (st.ledger.map Prod.fst)), (lookupUp files m.2.2).isSome := by
    intro m hm
    obtain ⟨w, hw, hwp⟩ := List.mem_filterMap.mp hm
    have hfn := (pendingPick_filename _ w _ hwp).1
    rw [hfn]
    exact lookupUp_isSome files w ((mem_sortStr w _).mp hw) hups
  obtain ⟨heq, hnd⟩ := applyList_ok_ledger exec files _ st st' hupAll hrun2
  exact ⟨hget, hmem, hsorted, heq, hnd hnodup⟩

/-- Witness: pending_and_applyAll_exact on a concrete run: directory listing
002_second.sql, 001_first.sql (both with Up sections), ledger holding version
000, script execution incrementing a counter schema. -/
theorem pending_and_applyAll_exact_witness :
    get_pending_migrations true
        ([("002_second.sql", some "B"), ("001_first.sql", some "A")].map Prod.fst)
        (DBState.ledger (σ := Nat) ⟨0, [("000", "base")]⟩) =
      .ok ((sortStr ([("002_second.sql", some "B"), ("001_first.sql", some "A")].map Prod.fst)).filterMap
            (pendingPick ((DBState.ledger (σ := Nat) ⟨0, [("000", "base")]⟩).map Prod.fst))) ∧
    (∀ v n f : String,
      (v, n, f) ∈ (sortStr ([("002_second.sql", some "B"), ("001_first.sql", some "A")].map Prod.fst)).filterMap
            (pendingPick ((DBState.ledger (σ := Nat) ⟨0, [("000", "base")]⟩).map Prod.fst)) ↔
        f ∈ [("002_second.sql", some "B"), ("001_first.sql", some "A")].map Prod.fst ∧
          parse_migration_filename f = some (v, n) ∧
          v ∉ (DBState.ledger (σ := Nat) ⟨0, [("000", "base")]⟩).map Prod.fst) ∧
    ((sortStr ([("002_second.sql", some "B"), ("001_first.sql", some "A")].map Prod.fst)).filterMap
        (pendingPick ((DBState.ledger (σ := Nat) ⟨0, [("000", "base")]⟩).map Prod.fst))).Pairwise
      (fun a b => strLeb a.2.2 b.2.2 = true) ∧
    (DBState.ledger (σ := Nat) ⟨2, [("000", "base"), ("001", "first"), ("002", "second")]⟩).map Prod.fst =
      (DBState.ledger (σ := Nat) ⟨0, [("000", "base")]⟩).map Prod.fst ++
        ((sortStr ([("002_second.sql", some "B"), ("001_first.sql", some "A")].map Prod.fst)).filterMap
            (pendingPick ((DBState.ledger (σ := Nat) ⟨0, [("000", "base")]⟩).map Prod.fst))).map
          (fun m => m.1) ∧
    ((DBState.ledger (σ := Nat)
        ⟨2, [("000", "base"), ("001", "first"), ("002", "second")]⟩).map Prod.fst).Nodup :=
  pending_and_applyAll_exact (fun _ s => .ok (s + 1))
    [("002_second.sql", some "B"), ("001_first.sql", some "A")]
    ⟨0, [("000", "base")]⟩
    ⟨2, [("000", "base"), ("001", "first"), ("002", "second")]⟩
    (by decide) (by decide) (by decide) (by rfl)
